import Mathlib

/-!
Shallow embedding of the GICv3 interrupt-controller virtualization engine of
hvisor (`src/device/irqchip/gicv3/mod.rs`): the per-core CPU-interface init,
the list-register injection path, the acknowledge/deactivate protocol, the
dispatcher, the shutdown/clear routines and the redistributor address
accessor.  Machine words are modelled as `Nat` with explicit masking where
the source masks; system-register writes that matter to the verified claims
are modelled as explicit state fields or write traces; the two unconditional
spin loops of the source (`loop {}` on list-register exhaustion and on an
out-of-range list-register index) are modelled as distinguished result
values, since the source never returns from them.
-/

namespace HvisorGicv3

/-- Number of implemented list registers, `(vtr & 0xf) + 1` in
`inject_irq` and `gicv3_clear_pending_irqs` (`ICH_VTR_EL2.ListRegs + 1`). -/
def lrCount (vtr : ℕ) : ℕ := (vtr &&& 0xf) + 1

/-- `LR_VIRTIRQ_MASK` constant of `inject_irq`. -/
def LR_VIRTIRQ_MASK : ℕ := 0x3ff

/-- `num_priority_bits` computed in `gicv3_clear_pending_irqs`:
`(vtr >> 29) + 1` (`ICH_VTR_EL2.PREbits + 1`). -/
def numPriorityBits (vtr : ℕ) : ℕ := vtr >>> 29 + 1

/-- The list-register value encoded by `inject_irq` before the final
`write_lr`: virtual INTID `irq_id`, group-1 bit 60, state-pending bit 62,
hardware-map bit 61, physical INTID `irq_id << 32`. -/
def injectEncode (irqId : ℕ) : ℕ :=
  irqId ||| 1 <<< 60 ||| 1 <<< 62 ||| 1 <<< 61 ||| irqId <<< 32

/-- Outcome of one `inject_irq` call: an early return because the scan
detected the ID as already present (`noop`), a final `write_lr idx val`
(`write`), or the non-returning `loop {}` on a full pool (`halt`). -/
inductive InjectResult where
  | noop : InjectResult
  | write : ℕ → ℕ → InjectResult
  | halt : InjectResult
deriving DecidableEq, Repr

/-- The scan loop of `inject_irq` (`for i in 0..lr_num`), with `fuel` the
number of iterations left, `i` the current index and `lrIdx` the recorded
first empty slot (`lr_idx`, `none` for the source's `-1`).  An iteration
whose `elsr` bit is set records the slot and continues; otherwise the
source reads `read_lr(i)` into an unused variable and compares
`i & LR_VIRTIRQ_MASK` with `irq_id`, returning early on equality.  The
second component lists the indices passed to `read_lr` along the way. -/
def injectLoop (irqId elsr : ℕ) : ℕ → ℕ → Option ℕ → InjectResult × List ℕ
  | 0, _, none => (.halt, [])
  | 0, _, some idx => (.write idx (injectEncode irqId), [])
  | fuel + 1, i, lrIdx =>
    if elsr / 2 ^ i % 2 = 1 then
      injectLoop irqId elsr fuel (i + 1)
        (match lrIdx with
         | none => some i
         | some j => some j)
    else if i &&& LR_VIRTIRQ_MASK = irqId then
      (.noop, [i])
    else
      let r := injectLoop irqId elsr fuel (i + 1) lrIdx
      (r.1, i :: r.2)

/-- `inject_irq(irq_id)` as a function of the values read from
`ICH_ELRSR_EL2` and `ICH_VTR_EL2`: runs the scan over all `lr_num` slots
starting from index 0 with no empty slot recorded yet. -/
def inject_irq (irqId elsr vtr : ℕ) : InjectResult × List ℕ :=
  injectLoop irqId elsr (lrCount vtr) 0 none

/-- `read_lr`: defined for indices 0–15 (the sixteen `ICH_LR<n>_EL2`
match arms); the default arm logs `lr over` and spins forever, modelled
as `none`. -/
def read_lr (id : ℕ) (lrs : List ℕ) : Option ℕ :=
  if id < 16 then some (lrs.getD id 0) else none

/-- `write_lr`: defined for indices 0–15; the default arm logs and spins
forever, modelled as `none`. -/
def write_lr (id val : ℕ) (lrs : List ℕ) : Option (List ℕ) :=
  if id < 16 then some (lrs.set id val) else none

/-- State field (bits 63:62) of a list-register value: 0 invalid/empty,
1 pending, 2 active. -/
def lrState (v : ℕ) : ℕ := v / 2 ^ 62 % 4

/-- Hardware rule for an `ICH_ELRSR_EL2` bit: the slot is reported empty
when its state field is invalid and (HW bit 61 set or EOI bit 41 clear). -/
def lrEmpty (v : ℕ) : Bool :=
  decide (lrState v = 0) && (decide (v / 2 ^ 61 % 2 = 1) || decide (v / 2 ^ 41 % 2 = 0))

/-- The `ICH_ELRSR_EL2` value the hardware derives from the list
registers: bit `i` is set iff slot `i` is empty. -/
def elsrOf : List ℕ → ℕ
  | [] => 0
  | v :: rest => (if lrEmpty v then 1 else 0) + 2 * elsrOf rest

/-- Effect of an `inject_irq` outcome on the list-register file: only the
`write` outcome stores a value; `noop` and `halt` leave it unchanged. -/
def applyInject (lrs : List ℕ) : InjectResult → List ℕ
  | .write idx v => lrs.set idx v
  | _ => lrs

/-- One full `inject_irq` call against a list-register file: the `elsr`
input is the value the hardware reports for that file. -/
def injectStep (vtr : ℕ) (lrs : List ℕ) (irqId : ℕ) : List ℕ :=
  applyInject lrs (inject_irq irqId (elsrOf lrs) vtr).1

/-- All list-register indices touched by one `inject_irq` call: the
indices read during the scan plus, when the call ends in `write_lr`, the
written index. -/
def injectAccesses (irqId elsr vtr : ℕ) : List ℕ :=
  (inject_irq irqId elsr vtr).2 ++
    (match (inject_irq irqId elsr vtr).1 with
     | .write idx _ => [idx]
     | _ => [])

/-- Per-core virtual-interface state touched by the shutdown/clear
routines: the list-register file and the four `ICH_AP1R<n>_EL2`
active-priority registers. -/
structure VGicState where
  lrs : List ℕ
  ap1r0 : ℕ
  ap1r1 : ℕ
  ap1r2 : ℕ
  ap1r3 : ℕ
deriving DecidableEq, Repr

/-- The `for i in 0..lr_num { write_lr(i, 0) }` loop of
`gicv3_clear_pending_irqs`: writes zero to slots `0..n-1` in ascending
order. -/
def clearLrs (lrs : List ℕ) : ℕ → List ℕ
  | 0 => lrs
  | n + 1 => (clearLrs lrs n).set n 0

/-- List-register indices written by the clear loop of
`gicv3_clear_pending_irqs`. -/
def clearAccesses (vtr : ℕ) : List ℕ := List.range (lrCount vtr)

/-- `ICH_AP1R<n>_EL2` indices written to zero by the active-priority
ladder of `gicv3_clear_pending_irqs`: register 0 when
`num_priority_bits >= 5`, register 1 when `>= 6`, registers 2 and 3 when
`> 6`. -/
def apWrites (vtr : ℕ) : List ℕ :=
  (if 5 ≤ numPriorityBits vtr then [0] else []) ++
    (if 6 ≤ numPriorityBits vtr then [1] else []) ++
      (if 6 < numPriorityBits vtr then [2, 3] else [])

/-- `gicv3_clear_pending_irqs`: clears every reported list register to
zero, then zeroes the active-priority registers selected by the
priority-bit ladder. -/
def gicv3_clear_pending_irqs (vtr : ℕ) (s : VGicState) : VGicState :=
  let s1 : VGicState := { s with lrs := clearLrs s.lrs (lrCount vtr) }
  let s2 : VGicState := if 5 ≤ numPriorityBits vtr then { s1 with ap1r0 := 0 } else s1
  let s3 : VGicState := if 6 ≤ numPriorityBits vtr then { s2 with ap1r1 := 0 } else s2
  if 6 < numPriorityBits vtr then { s3 with ap1r2 := 0, ap1r3 := 0 } else s3

/-- `gicv3_cpu_shutdown`: reads `ICC_CTLR_EL1`, `ICC_PMR_EL1` and
`ICH_HCR_EL2` for its log lines and performs no write (its reset is a
`TODO` in the source); in particular it never calls
`gicv3_clear_pending_irqs`, so the virtual-interface state is returned
unchanged. -/
def gicv3_cpu_shutdown (s : VGicState) : VGicState := s

/-- `pending_irq`: reads `ICC_IAR1_EL1`; values `>= 0x3fe` are spurious
and yield `none`, anything else is the acknowledged ID. -/
def pending_irq (iar : ℕ) : Option ℕ :=
  if 0x3fe ≤ iar then none else some iar

/-- The two CPU-interface registers written by `deactivate_irq`. -/
inductive CpuReg where
  | eoir1 : CpuReg
  | dir : CpuReg
deriving DecidableEq, Repr

/-- `deactivate_irq(irq_id)`: always writes `irq_id` to `ICC_EOIR1_EL1`
(priority drop); when `irq_id < 16` it additionally writes `irq_id` to
`ICC_DIR_EL1` (explicit deactivation), in that order. -/
def deactivate_irq (irqId : ℕ) : List (CpuReg × ℕ) :=
  (CpuReg.eoir1, irqId) :: (if irqId < 16 then [(CpuReg.dir, irqId)] else [])

/-- Observable actions of the dispatcher `gicv3_handle_irq_el1`:
a `deactivate_irq` call, an `inject_irq` call, or the synchronous
`check_events()` call into the cross-core event collaborator. -/
inductive Event where
  | deact : ℕ → Event
  | injEv : ℕ → Event
  | checkEvents : Event
deriving DecidableEq, Repr

/-- `gicv3_handle_irq_el1` as the sequence of actions it performs for one
acknowledged value `iar`.  `sgiEventId` and `sgiResumeId` stand for the
constants `SGI_EVENT_ID` and `SGI_RESUME_ID` imported from
`crate::hypercall`, whose definitions are outside this tree; modelled
from the spec, they are the two reserved software-generated IDs in the
8–15 range.  Branch structure follows the source: spurious → nothing;
`irq_id < 8` → deactivate then inject; `irq_id == SGI_EVENT_ID` →
`check_events()` then deactivate; `irq_id == SGI_RESUME_ID` → nothing;
other IDs below 16 → log-and-skip; `irq_id >= 16` → deactivate then
inject. -/
def gicv3_handle_irq_el1 (iar sgiEventId sgiResumeId : ℕ) : List Event :=
  match pending_irq iar with
  | none => []
  | some irqId =>
    if irqId < 16 then
      if irqId < 8 then [.deact irqId, .injEv irqId]
      else if irqId = sgiEventId then [.checkEvents, .deact irqId]
      else if irqId = sgiResumeId then []
      else []
    else [.deact irqId, .injEv irqId]

/-- Whether some occurrence of `a` appears strictly before some
occurrence of `b` in a trace. -/
def precedes (a b : Event) : List Event → Bool
  | [] => false
  | x :: xs => if x = a then decide (b ∈ xs) else precedes a b xs

/-- Per-core CPU-interface and virtual-interface registers programmed by
`irqchip_cpu_init`. -/
structure CpuIfState where
  iccCtlr : ℕ
  iccPmr : ℕ
  iccIgrpen : ℕ
  ichVmcr : ℕ
  ichHcr : ℕ
deriving DecidableEq, Repr

/-- `irqchip_cpu_init`: writes `ICC_CTLR_EL1 := 0x2` (split EOI), reads
the pre-existing `ICC_PMR_EL1` into `pmr`, then writes
`ICC_PMR_EL1 := 0xf0`, `ICC_IGRPEN1_EL1 := 1`, reads `ICH_VTR_EL2`, and
programs `ICH_VMCR_EL2 := ((pmr & 0xff) << 24) | (1 << 1) | (1 << 9)`
(VPMR from the *previously read* `pmr`, VENG1, VEOIM) and
`ICH_HCR_EL2 := 1`. -/
def irqchip_cpu_init (s : CpuIfState) : CpuIfState :=
  let pmr := s.iccPmr
  { iccCtlr := 0x2
    iccPmr := 0xf0
    iccIgrpen := 0x1
    ichVmcr := (pmr &&& 0xff) <<< 24 ||| 1 <<< 1 ||| 1 <<< 9
    ichHcr := 0x1 }

/-- `PER_GICR_SIZE` constant: the fixed per-core redistributor stride. -/
def PER_GICR_SIZE : ℕ := 0x20000

/-- `host_gicr_base(id)`: asserts `id < MAX_CPU_NUM` (assertion failure
modelled as `none`), then returns the descriptor redistributor base plus
`id * PER_GICR_SIZE`.  `MAX_CPU_NUM` comes from `crate::consts`, outside
this tree, so it is kept as a parameter. -/
def host_gicr_base (maxCpuNum gicrBase id : ℕ) : Option ℕ :=
  if id < maxCpuNum then some (gicrBase + id * PER_GICR_SIZE) else none

/-! ## Theorems -/

/-- Claim C1 (code bug): the source's duplicate check compares the loop
index `i`, not the read list-register value, with `irq_id` (the read
`_lr_val` is discarded), so injecting an ID that already occupies a slot
is not a no-op.  Concretely, with 4 list registers: starting from an
empty file, `inject_irq(5)` fills slot 0 with an occupied (pending,
non-empty) value whose decoded virtual ID is 5; a second `inject_irq(5)`
then writes slot 1 instead of returning, and a third call changes state
yet again, so two consecutive calls do not equal one call. -/
theorem inject_duplicate_written :
    lrEmpty (injectEncode 5) = false ∧
    injectEncode 5 &&& LR_VIRTIRQ_MASK = 5 ∧
    injectStep 3 [0, 0, 0, 0] 5 = [injectEncode 5, 0, 0, 0] ∧
    injectStep 3 [injectEncode 5, 0, 0, 0] 5 = [injectEncode 5, injectEncode 5, 0, 0] ∧
    injectStep 3 (injectStep 3 [injectEncode 5, 0, 0, 0] 5) 5
      ≠ injectStep 3 [injectEncode 5, 0, 0, 0] 5 := by
  decide

/-- Claim C2 (code bug): `gicv3_cpu_shutdown` only logs and performs no
write (`TODO gicv3 reset`), and never calls `gicv3_clear_pending_irqs`,
so after shutdown a previously injected interrupt still sits in a
non-Invalid list-register slot and a nonzero active-priority register
keeps its value.  The state used is the one reached by injecting ID 5
into an empty 4-slot file, with `ICH_AP1R0_EL2 = 7`. -/
theorem shutdown_leaves_state :
    injectStep 3 [0, 0, 0, 0] 5 = [injectEncode 5, 0, 0, 0] ∧
    gicv3_cpu_shutdown ⟨[injectEncode 5, 0, 0, 0], 7, 0, 0, 0⟩
      = ⟨[injectEncode 5, 0, 0, 0], 7, 0, 0, 0⟩ ∧
    lrState ((gicv3_cpu_shutdown ⟨[injectEncode 5, 0, 0, 0], 7, 0, 0, 0⟩).lrs.getD 0 0) ≠ 0 ∧
    (gicv3_cpu_shutdown ⟨[injectEncode 5, 0, 0, 0], 7, 0, 0, 0⟩).ap1r0 ≠ 0 := by
  decide

/-- The uncalled clear routine itself does establish the cleared state:
with 4 reported list registers and 8 priority bits it zeroes every slot
and all four active-priority registers. -/
theorem clear_pending_irqs_clears_example :
    gicv3_clear_pending_irqs (7 * 2 ^ 29 + 3)
        ⟨[injectEncode 5, injectEncode 9, 0, 0], 7, 8, 9, 10⟩
      = ⟨[0, 0, 0, 0], 0, 0, 0, 0⟩ := by
  decide

/-- Claim C3, counterexample: in the hypervisor-event branch the source
calls `check_events()` *before* `deactivate_irq`, so with the event SGI
ID acknowledged (here 10), no deactivation of that ID precedes the
`check_events` call in the emitted action trace. -/
theorem event_sgi_order_counterexample :
    gicv3_handle_irq_el1 10 10 14 = [Event.checkEvents, Event.deact 10] ∧
    Event.checkEvents ∈ gicv3_handle_irq_el1 10 10 14 ∧
    precedes (Event.deact 10) Event.checkEvents (gicv3_handle_irq_el1 10 10 14) = false := by
  decide

/-- Claim C3 (amended): when the dispatcher acknowledges the hypervisor
event SGI ID (a reserved ID in the 8–15 range), it synchronously invokes
the cross-core event-drain collaborator `check_events` first and then
deactivates that ID, and performs no re-injection of that ID. -/
theorem event_sgi_check_then_deact (sgiEventId sgiResumeId : ℕ)
    (h8 : 8 ≤ sgiEventId) (h16 : sgiEventId < 16) :
    gicv3_handle_irq_el1 sgiEventId sgiEventId sgiResumeId
      = [Event.checkEvents, Event.deact sgiEventId] ∧
    Event.injEv sgiEventId ∉ gicv3_handle_irq_el1 sgiEventId sgiEventId sgiResumeId := by
  have hsp : ¬ 0x3fe ≤ sgiEventId := by omega
  have h8n : ¬ sgiEventId < 8 := by omega
  constructor
  · simp [gicv3_handle_irq_el1, pending_irq, hsp, h16, h8n]
  · simp [gicv3_handle_irq_el1, pending_irq, hsp, h16, h8n]

/-- Witness for the amended C3 theorem at event ID 10 and resume ID 14. -/
theorem event_sgi_check_then_deact_witness :
    gicv3_handle_irq_el1 10 10 14 = [Event.checkEvents, Event.deact 10] ∧
    Event.injEv 10 ∉ gicv3_handle_irq_el1 10 10 14 :=
  ⟨(event_sgi_check_then_deact 10 14 (by decide) (by decide)).1,
   (event_sgi_check_then_deact 10 14 (by decide) (by decide)).2⟩

/-- Claim C4, counterexample: at a reported priority width of 5 bits
(`vtr >> 29 = 4`) the ladder writes exactly one active-priority
register, not the two the claim states. -/
theorem apWrites_claim_counterexample :
    numPriorityBits (4 * 2 ^ 29) = 5 ∧ (apWrites (4 * 2 ^ 29)).length = 1 ∧
    (apWrites (4 * 2 ^ 29)).length ≠ 2 := by
  decide

/-- Claim C4 (amended): the shutdown-clear ladder writes 0 active-priority
group registers when the reported priority width is at most 4 bits, 1
register at 5 bits, 2 at 6 bits, and 4 when the width exceeds 6 bits. -/
theorem apWrites_count (vtr : ℕ) :
    (numPriorityBits vtr ≤ 4 → (apWrites vtr).length = 0) ∧
    (numPriorityBits vtr = 5 → (apWrites vtr).length = 1) ∧
    (numPriorityBits vtr = 6 → (apWrites vtr).length = 2) ∧
    (6 < numPriorityBits vtr → (apWrites vtr).length = 4) := by
  unfold apWrites
  refine ⟨?_, ?_, ?_, ?_⟩ <;> intro h <;> split_ifs <;> simp_all <;> omega

/-- Witness for the amended C4 theorem at widths 1, 5, 6 and 8. -/
theorem apWrites_count_witness :
    (apWrites 0).length = 0 ∧ (apWrites (4 * 2 ^ 29)).length = 1 ∧
    (apWrites (5 * 2 ^ 29)).length = 2 ∧ (apWrites (6 * 2 ^ 29)).length = 4 :=
  ⟨(apWrites_count 0).1 (by decide),
   (apWrites_count (4 * 2 ^ 29)).2.1 (by decide),
   (apWrites_count (5 * 2 ^ 29)).2.2.1 (by decide),
   (apWrites_count (6 * 2 ^ 29)).2.2.2 (by decide)⟩

/-- Claim C6: `deactivate_irq` issues the priority-drop write
(`ICC_EOIR1_EL1`) and then the explicit deactivate write (`ICC_DIR_EL1`)
for every ID below 16, and only the priority-drop write for IDs of 16
and above. -/
theorem deactivate_irq_writes (irqId : ℕ) :
    (irqId < 16 →
      deactivate_irq irqId = [(CpuReg.eoir1, irqId), (CpuReg.dir, irqId)]) ∧
    (16 ≤ irqId → deactivate_irq irqId = [(CpuReg.eoir1, irqId)]) := by
  constructor
  · intro h
    simp [deactivate_irq, h]
  · intro h
    simp [deactivate_irq, Nat.not_lt.mpr h]

/-- Witness for the C6 theorem at IDs 5 and 33. -/
theorem deactivate_irq_writes_witness :
    deactivate_irq 5 = [(CpuReg.eoir1, 5), (CpuReg.dir, 5)] ∧
    deactivate_irq 33 = [(CpuReg.eoir1, 33)] :=
  ⟨(deactivate_irq_writes 5).1 (by decide), (deactivate_irq_writes 33).2 (by decide)⟩

/-- Claim C7: over the 10-bit acknowledge-value range, `pending_irq`
yields nothing exactly for the spurious values `0x3fe` and `0x3ff`, and
yields the raw value itself for every value below `0x3fe`. -/
theorem pending_irq_spurious (iar : ℕ) (_hiar : iar ≤ 0x3ff) :
    (pending_irq iar = none ↔ 0x3fe ≤ iar) ∧
    (iar < 0x3fe → pending_irq iar = some iar) := by
  constructor
  · unfold pending_irq
    split_ifs with h
    · simp [h]
    · simp [h]
  · intro h
    simp [pending_irq, Nat.not_le.mpr h]

/-- Witness for the C7 theorem at raw values `0x3fe` and 5. -/
theorem pending_irq_spurious_witness :
    pending_irq 0x3fe = none ∧ pending_irq 5 = some 5 :=
  ⟨((pending_irq_spurious 0x3fe (by decide)).1).mpr (by decide),
   (pending_irq_spurious 5 (by decide)).2 (by decide)⟩

/-- Claim C8, counterexample: when the physical priority-mask register
reads 0 before init, the virtual priority-mask field programmed into
`ICH_VMCR_EL2` is 0, not the fixed threshold `0xf0` that init writes to
`ICC_PMR_EL1` — the source reads the old mask before overwriting it. -/
theorem cpu_init_vpmr_counterexample :
    (irqchip_cpu_init ⟨0, 0, 0, 0, 0⟩).ichVmcr / 2 ^ 24 % 256 = 0 ∧
    (irqchip_cpu_init ⟨0, 0, 0, 0, 0⟩).ichVmcr / 2 ^ 24 % 256 ≠ 0xf0 := by
  decide

set_option maxRecDepth 100000 in
/-- Disjoint-bit arithmetic for the `ICH_VMCR_EL2` value: with the mask
field below 256, the or-ed control bits 1 and 9 add up numerically. -/
theorem vmcr_or_eq_add :
    ∀ p, p < 256 → (p * 2 ^ 24) ||| 1 <<< 1 ||| 1 <<< 9 = p * 2 ^ 24 + 514 := by
  decide

/-- Claim C8 (amended): after `irqchip_cpu_init`, the virtual CPU
interface control register holds the *pre-init* priority-mask value (its
low 8 bits) in the virtual priority-mask field, has the virtual Group-1
enable bit (bit 1) and the virtual split-EOI bit (bit 9) set — the
latter matching the physical split-EOI selection `ICC_CTLR_EL1 = 0x2` —
the physical mask register holds `0xf0`, Group-1 delivery is enabled,
and the hypervisor control register enables virtual-interrupt
presentation. -/
theorem cpu_init_state (s : CpuIfState) :
    (irqchip_cpu_init s).ichVmcr / 2 ^ 24 % 256 = s.iccPmr % 256 ∧
    (irqchip_cpu_init s).ichVmcr / 2 % 2 = 1 ∧
    (irqchip_cpu_init s).ichVmcr / 2 ^ 9 % 2 = 1 ∧
    (irqchip_cpu_init s).iccCtlr = 0x2 ∧
    (irqchip_cpu_init s).iccPmr = 0xf0 ∧
    (irqchip_cpu_init s).iccIgrpen = 1 ∧
    (irqchip_cpu_init s).ichHcr = 1 := by
  have hmask : s.iccPmr &&& 0xff = s.iccPmr % 256 := by
    have h := Nat.and_pow_two_sub_one_eq_mod s.iccPmr 8
    norm_num at h
    exact h
  have hlt : s.iccPmr % 256 < 256 := Nat.mod_lt _ (by norm_num)
  have hvm : (irqchip_cpu_init s).ichVmcr = s.iccPmr % 256 * 2 ^ 24 + 514 := by
    show (s.iccPmr &&& 0xff) <<< 24 ||| 1 <<< 1 ||| 1 <<< 9 = _
    rw [hmask, Nat.shiftLeft_eq]
    exact vmcr_or_eq_add _ hlt
  refine ⟨?_, ?_, ?_, rfl, rfl, rfl, rfl⟩ <;> rw [hvm] <;> omega

/-- Claim C9: the per-core redistributor accessor returns the descriptor
base plus `id * 0x20000` for every index below the supported core count,
and fails the assertion (modelled as `none`) for every index at or above
it. -/
theorem host_gicr_base_spec (maxCpuNum gicrBase id : ℕ) :
    (id < maxCpuNum →
      host_gicr_base maxCpuNum gicrBase id = some (gicrBase + id * 0x20000)) ∧
    (maxCpuNum ≤ id → host_gicr_base maxCpuNum gicrBase id = none) := by
  constructor
  · intro h
    simp [host_gicr_base, PER_GICR_SIZE, h]
  · intro h
    simp [host_gicr_base, Nat.not_lt.mpr h]

/-- Witness for the C9 theorem with 4 cores, base `0x100000`, at indices
1 and 4. -/
theorem host_gicr_base_spec_witness :
    host_gicr_base 4 0x100000 1 = some (0x100000 + 1 * 0x20000) ∧
    host_gicr_base 4 0x100000 4 = none :=
  ⟨(host_gicr_base_spec 4 0x100000 1).1 (by decide),
   (host_gicr_base_spec 4 0x100000 4).2 (by decide)⟩

/-- If every slot still to be scanned is occupied and escapes the
source's detection, and no empty slot has been recorded, the scan ends
in the non-returning exhaustion branch. -/
theorem injectLoop_halt_of_full (irqId elsr : ℕ) :
    ∀ fuel i,
      (∀ j, i ≤ j → j < i + fuel →
        elsr / 2 ^ j % 2 = 0 ∧ j &&& LR_VIRTIRQ_MASK ≠ irqId) →
      (injectLoop irqId elsr fuel i none).1 = InjectResult.halt := by
  intro fuel
  induction fuel with
  | zero => intro i _; rfl
  | succ n ih =>
    intro i h
    obtain ⟨hocc, hdet⟩ := h i (le_refl i) (by omega)
    have hcond : ¬ elsr / 2 ^ i % 2 = 1 := by omega
    simp only [injectLoop, if_neg hcond, if_neg hdet]
    exact ih (i + 1) (fun j hj1 hj2 => h j (by omega) (by omega))

/-- If an empty slot has been recorded already, or some slot still to be
scanned is reported empty, the scan never reaches the exhaustion
branch. -/
theorem injectLoop_ne_halt (irqId elsr : ℕ) :
    ∀ fuel i lrIdx,
      (lrIdx ≠ none ∨ ∃ j, i ≤ j ∧ j < i + fuel ∧ elsr / 2 ^ j % 2 = 1) →
      (injectLoop irqId elsr fuel i lrIdx).1 ≠ InjectResult.halt := by
  intro fuel
  induction fuel with
  | zero =>
    intro i lrIdx h
    match lrIdx, h with
    | some idx, _ => simp [injectLoop]
    | none, .inl hne => exact absurd rfl hne
    | none, .inr ⟨j, hj1, hj2, _⟩ => omega
  | succ n ih =>
    intro i lrIdx h
    by_cases hc : elsr / 2 ^ i % 2 = 1
    · simp only [injectLoop, if_pos hc]
      apply ih
      left
      cases lrIdx <;> simp
    · by_cases hd : i &&& LR_VIRTIRQ_MASK = irqId
      · simp [injectLoop, if_neg hc, if_pos hd]
      · simp only [injectLoop, if_neg hc, if_neg hd]
        rcases h with hne | ⟨j, hj1, hj2, hbit⟩
        · exact ih (i + 1) lrIdx (.inl hne)
        · have hij : i + 1 ≤ j := by
            rcases Nat.eq_or_lt_of_le hj1 with rfl | hlt
            · exact absurd hbit hc
            · omega
          exact ih (i + 1) lrIdx (.inr ⟨j, hij, by omega, hbit⟩)

/-- Claim C5: when every hardware-reported slot is occupied and none is
detected by the scan as already holding the ID, `inject_irq` ends in the
unconditional spin loop (modelled as the `halt` outcome, from which the
source never returns); conversely, whenever at least one reported slot
is empty, `inject_irq` terminates (its outcome is not `halt`). -/
theorem inject_exhaustion (irqId elsr vtr : ℕ) :
    ((∀ i, i < lrCount vtr → elsr / 2 ^ i % 2 = 0) →
     (∀ i, i < lrCount vtr → i &&& LR_VIRTIRQ_MASK ≠ irqId) →
     (inject_irq irqId elsr vtr).1 = InjectResult.halt) ∧
    ((∃ i, i < lrCount vtr ∧ elsr / 2 ^ i % 2 = 1) →
     (inject_irq irqId elsr vtr).1 ≠ InjectResult.halt) := by
  constructor
  · intro hocc hdet
    exact injectLoop_halt_of_full irqId elsr (lrCount vtr) 0
      (fun j _ hj => ⟨hocc j (by omega), hdet j (by omega)⟩)
  · intro h
    obtain ⟨i, hi, hbit⟩ := h
    exact injectLoop_ne_halt irqId elsr (lrCount vtr) 0 none
      (.inr ⟨i, Nat.zero_le i, by omega, hbit⟩)

/-- Witness for the C5 theorem: with one list register, an all-occupied
`elsr = 0` halts `inject_irq 5`, while `elsr = 1` (slot 0 empty) does
not. -/
theorem inject_exhaustion_witness :
    (inject_irq 5 0 0).1 = InjectResult.halt ∧
    (inject_irq 5 1 0).1 ≠ InjectResult.halt :=
  ⟨(inject_exhaustion 5 0 0).1 (by decide) (by decide),
   (inject_exhaustion 5 1 0).2 ⟨0, by decide, by decide⟩⟩

/-- Every index the scan reads, and any index it finally writes, lies
below `i + fuel`, assuming the recorded empty slot (if any) is below the
current index. -/
theorem injectLoop_access_lt (irqId elsr : ℕ) :
    ∀ fuel i lrIdx, (∀ j, lrIdx = some j → j < i) →
      ∀ x, (x ∈ (injectLoop irqId elsr fuel i lrIdx).2 ∨
            ∃ v, (injectLoop irqId elsr fuel i lrIdx).1 = InjectResult.write x v) →
        x < i + fuel := by
  intro fuel
  induction fuel with
  | zero =>
    intro i lrIdx hb x hx
    match lrIdx, hx with
    | none, .inl hm => simp [injectLoop] at hm
    | none, .inr ⟨v, hw⟩ => simp [injectLoop] at hw
    | some idx, .inl hm => simp [injectLoop] at hm
    | some idx, .inr ⟨v, hw⟩ =>
      simp only [injectLoop, InjectResult.write.injEq] at hw
      have hidx := hb idx rfl
      omega
  | succ n ih =>
    intro i lrIdx hb x hx
    by_cases hc : elsr / 2 ^ i % 2 = 1
    · cases lrIdx with
      | none =>
        simp only [injectLoop, if_pos hc] at hx
        have := ih (i + 1) (some i) (fun j hj => by injection hj with hj; omega) x hx
        omega
      | some k =>
        simp only [injectLoop, if_pos hc] at hx
        have hk := hb k rfl
        have := ih (i + 1) (some k) (fun j hj => by injection hj with hj; omega) x hx
        omega
    · by_cases hd : i &&& LR_VIRTIRQ_MASK = irqId
      · simp only [injectLoop, if_neg hc, if_pos hd] at hx
        rcases hx with hm | ⟨v, hw⟩
        · simp at hm
          omega
        · simp at hw
      · simp only [injectLoop, if_neg hc, if_neg hd] at hx
        rcases hx with hm | ⟨v, hw⟩
        · rcases List.mem_cons.mp hm with rfl | hm2
          · omega
          · have := ih (i + 1) lrIdx (fun j hj => by have := hb j hj; omega) x (.inl hm2)
            omega
        · have := ih (i + 1) lrIdx (fun j hj => by have := hb j hj; omega) x (.inr ⟨v, hw⟩)
          omega

/-- Claim C10: every list-register index touched by the injection path
and by the shutdown clear loop is strictly below the hardware-reported
count `(vtr & 0xf) + 1`, which is at most 16; hence `read_lr` and
`write_lr` are defined (do not reach their log-and-spin default arm) at
every such index. -/
theorem lr_access_bounds (irqId elsr vtr : ℕ) :
    (∀ x ∈ injectAccesses irqId elsr vtr, x < lrCount vtr) ∧
    (∀ x ∈ clearAccesses vtr, x < lrCount vtr) ∧
    lrCount vtr ≤ 16 ∧
    (∀ x ∈ injectAccesses irqId elsr vtr ++ clearAccesses vtr, ∀ lrs,
      (read_lr x lrs).isSome = true ∧ (write_lr x 0 lrs).isSome = true) := by
  have h16 : lrCount vtr ≤ 16 := by
    have h15 : vtr &&& 0xf ≤ 0xf := Nat.and_le_right
    unfold lrCount
    omega
  have hinj : ∀ x ∈ injectAccesses irqId elsr vtr, x < lrCount vtr := by
    intro x hx
    unfold injectAccesses at hx
    rcases List.mem_append.mp hx with hm | hm
    · have := injectLoop_access_lt irqId elsr (lrCount vtr) 0 none
        (fun j hj => by cases hj) x (.inl hm)
      omega
    · rcases hr : (inject_irq irqId elsr vtr).1 with _ | ⟨idx, v⟩ | _ <;> rw [hr] at hm
      · simp at hm
      · simp at hm
        have := injectLoop_access_lt irqId elsr (lrCount vtr) 0 none
          (fun j hj => by cases hj) idx (.inr ⟨v, hr⟩)
        omega
      · simp at hm
  have hclear : ∀ x ∈ clearAccesses vtr, x < lrCount vtr := by
    intro x hx
    exact List.mem_range.mp hx
  refine ⟨hinj, hclear, h16, ?_⟩
  intro x hx lrs
  have hx16 : x < 16 := by
    rcases List.mem_append.mp hx with hm | hm
    · have := hinj x hm
      omega
    · have := hclear x hm
      omega
  constructor
  · simp [read_lr, hx16]
  · simp [write_lr, hx16]

/-- Witness for the C10 theorem: with `vtr = 0` (one list register) and
an all-occupied `elsr`, the injection scan reads exactly index 0, the
clear loop writes exactly index 0, both below the count, and both
accessors are defined there. -/
theorem lr_access_bounds_witness :
    0 < lrCount 0 ∧ 0 < lrCount 0 ∧ lrCount 0 ≤ 16 ∧
    ((read_lr 0 []).isSome = true ∧ (write_lr 0 0 []).isSome = true) :=
  ⟨(lr_access_bounds 5 0 0).1 0 (by decide),
   (lr_access_bounds 5 0 0).2.1 0 (by decide),
   (lr_access_bounds 5 0 0).2.2.1,
   (lr_access_bounds 5 0 0).2.2.2 0 (by decide) []⟩

end HvisorGicv3
